import Mathlib

/-
Verification of the pyunifiprotect state-synchronization core against its
specification.  The definitions below are shallow embeddings of
`pyunifiprotect/api.py` (event pagination, `update`, websocket URL handling,
subscription fan-out) and `pyunifiprotect/data/nvr.py` (custom doorbell
message operations).  External effects (HTTP requests, the websocket
transport, the clock) are passed in as explicit arguments; fallible calls are
modelled with `Except`/`Option`.
-/

namespace UFP

/-- An event as returned by the events endpoint.  Only the `start` timestamp
and the optional `end` timestamp (here `stop`, `none` while the event is
ongoing) matter to the pagination logic; both are JavaScript-style millisecond
integers (`to_js_time`). -/
structure Event where
  start : Int
  stop : Option Int
  deriving Repr, DecidableEq

/-- One page of the server's event stream.  The server is modelled by the full
list of events it holds, newest first (descending `start`), which is the order
`_get_event_paginate` requests (`orderDirection = "DESC"`); a request with a
given `offset` and `limit = 100` returns `(server.drop offset).take 100`. -/
def page (server : List Event) (offset : Nat) : List Event :=
  (server.drop offset).take 100

/-- Python's `sys.maxsize` on a 64-bit platform, the initial value of the
`current_start` loop bound in `_get_event_paginate`. -/
def sysMaxsize : Int := 2 ^ 63 - 1

/-- The observable outcome of one `_get_event_paginate` run: the returned
events together with the run's `request_count`, the number of non-empty pages
processed, how many times the `TYPES_BUG_MESSAGE` warning was logged, the final
`logged` flag and `current_start` value, and whether the loop ended through the
empty-page `break`. -/
structure PaginateResult where
  events : List Event
  requestCount : Nat
  pages : Nat
  warnCount : Nat
  logged : Bool
  currentStart : Int
  exitEmptyPage : Bool
  deriving Repr, DecidableEq

/-- The per-page `end` clipping of `_get_event_paginate`: when an `end` bound
was requested, events of the page are appended while `event["start"] <=
end_int`; the first event past the bound breaks out of the page loop, so the
rest of the page is dropped. -/
def clipPage (endInt : Option Int) (newEvents : List Event) : List Event :=
  match endInt with
  | none => newEvents
  | some e => newEvents.takeWhile fun ev => decide (ev.start ≤ e)

/-- The `while current_start > start_int` loop of `_get_event_paginate`,
embedded structurally on a fuel argument; `none` means the fuel ran out before
the loop finished, which is proved impossible for `fuel = server.length + 1`.
State arguments follow the Python locals: `offset`, `current_start`, `events`,
`request_count`, the non-empty page count, `logged`, and the warning count. -/
def paginateLoop (server : List Event) (startInt : Int) (endInt : Option Int) :
    Nat → Nat → Int → List Event → Nat → Nat → Bool → Nat →
      Option PaginateResult
  | 0, _, _, _, _, _, _, _ => none
  | fuel + 1, offset, currentStart, events, requestCount, pages, logged,
      warnCount =>
    if currentStart > startInt then
      let newEvents := page server offset
      let requestCount := requestCount + 1
      if newEvents = [] then
        some ⟨events, requestCount, pages, warnCount, logged, currentStart,
          true⟩
      else
        let pages := pages + 1
        let events := events ++ clipPage endInt newEvents
        let currentStart :=
          match events.getLast? with
          | some ev => ev.start
          | none => currentStart
        let warn := !logged && decide (requestCount > 5)
        let logged := logged || warn
        let warnCount := if warn then warnCount + 1 else warnCount
        paginateLoop server startInt endInt fuel (offset + 100) currentStart
          events requestCount pages logged warnCount
    else
      some ⟨events, requestCount, pages, warnCount, logged, currentStart,
        false⟩

/-- Fuel that provably suffices for the pagination loop on a finite server. -/
def enoughFuel (server : List Event) : Nat := server.length + 1

/-- The trailing trim after the pagination loop: reversed iteration counts the
trailing events with `start < start_int` up to the first that is not, and the
slice `events[:-to_remove]` is taken only when `to_remove` is nonzero. -/
def trimTrailing (startInt : Int) (events : List Event) : List Event :=
  let toRemove :=
    (events.reverse.takeWhile fun ev => decide (ev.start < startInt)).length
  if toRemove ≠ 0 then events.take (events.length - toRemove) else events

/-- Embedding of `ProtectApiClient._get_event_paginate` over a finite server:
run the loop from `offset = 0`, `current_start = sys.maxsize` and an empty
accumulator, then apply the trailing trim.  The fallback record is never
reached: the fuel is proved sufficient. -/
def getEventPaginate (server : List Event) (startInt : Int)
    (endInt : Option Int) : PaginateResult :=
  match paginateLoop server startInt endInt (enoughFuel server) 0 sysMaxsize
      [] 0 0 false 0 with
  | some r => { r with events := trimTrailing startInt r.events }
  | none => ⟨[], 0, 0, 0, false, sysMaxsize, false⟩

/-- The `sorting` argument of `get_events_raw`. -/
inductive Sorting where
  | asc
  | desc
  deriving Repr, DecidableEq

/-- Python truthiness of an `Optional[int]`: `None` and `0` are falsy. -/
def truthy : Option Nat → Bool
  | none => false
  | some n => decide (n ≠ 0)

/-- The `limit`/`offset` slicing at the end of the manual-pagination branch of
`get_events_raw`: `events[offset : limit + offset]` when a nonzero `limit` was
given (with `offset = offset or 0`), else `events[offset:]` for a truthy
`offset`. -/
def sliceEvents (limit offs : Option Nat) (events : List Event) :
    List Event :=
  if truthy limit then
    (events.drop (offs.getD 0)).take (limit.getD 0)
  else if truthy offs then
    events.drop (offs.getD 0)
  else
    events

/-- Embedding of `ProtectApiClient.get_events_raw` in its manual-pagination
branch (no `types` filter in the params, `start` given,
`_allow_manual_paginate` true): the paginated events, reversed when ascending
order was requested, then sliced by `limit`/`offset`. -/
def getEventsRaw (server : List Event) (startInt : Int) (endInt : Option Int)
    (limit offs : Option Nat) (sorting : Sorting) : List Event :=
  let events := (getEventPaginate server startInt endInt).events
  let events :=
    match sorting with
    | .asc => events.reverse
    | .desc => events
  sliceEvents limit offs events

/-- The `current_start` value matching an accumulated event list: the `start`
of its last element, `sys.maxsize` while it is empty. -/
def lastStartD (acc : List Event) : Int :=
  match acc.getLast? with
  | some ev => ev.start
  | none => sysMaxsize

/-- Modelled from the spec: per-page clipping as the specification words it —
items whose `start` is greater than the requested `end` are cut off, and the
rest of the page after the cut is not taken. -/
def specClip (endInt : Option Int) (p : List Event) : List Event :=
  match endInt with
  | none => p
  | some e => p.takeWhile fun ev => decide (ev.start ≤ e)

/-- Modelled from the spec: the accumulation phase as the specification words
it — fetch descending pages of size 100, clip each against the optional end,
and accumulate until the oldest accumulated item's `start` is at most the
requested start, or a page comes back empty. -/
def specAccum (startInt : Int) (endInt : Option Int)
    (remaining acc : List Event) : List Event :=
  if h : remaining.take 100 = [] then acc
  else
    let acc2 := acc ++ specClip endInt (remaining.take 100)
    match acc2.getLast? with
    | some ev =>
      if ev.start ≤ startInt then acc2
      else specAccum startInt endInt (remaining.drop 100) acc2
    | none => specAccum startInt endInt (remaining.drop 100) acc2
termination_by remaining.length
decreasing_by
  all_goals
    have hne : remaining ≠ [] := fun hr => h (by simp [hr])
    have hpos : 0 < remaining.length := List.length_pos.mpr hne
    simp only [List.length_drop]
    omega

/-- Modelled from the spec: the final trim — remove the trailing items whose
`start` is before the requested start. -/
def specTrim (startInt : Int) (events : List Event) : List Event :=
  (events.reverse.dropWhile fun ev => decide (ev.start < startInt)).reverse

/-- Modelled from the spec: the whole catch-up pagination algorithm in the
specification's wording. -/
def specCatchUp (server : List Event) (startInt : Int) (endInt : Option Int) :
    List Event :=
  specTrim startInt (specAccum startInt endInt server [])

/-- The event with start 100 from the C1 scenario (`{start:100,end:150}`). -/
def ev100 : Event := ⟨100, some 150⟩

/-- The event with start 200 from the C1 scenario (`{start:200,end:250}`). -/
def ev200 : Event := ⟨200, some 250⟩

/-- The ongoing event with start 300 from the C1 scenario
(`{start:300,end:null}`). -/
def ev300 : Event := ⟨300, none⟩

/-- The server of claim C1: it holds exactly the three events and serves them
newest first in descending pages. -/
def serverC1 : List Event := [ev300, ev200, ev100]

/-- The server of the C7 counterexample: exactly 500 events (five full pages),
newest first, all newer than the requested start. -/
def server500 : List Event :=
  (List.range 500).map fun i => ⟨(1000 : Int) - i, none⟩

/-- Modelled from the spec: the Bootstrap snapshot held by the client.  Only
the `lastUpdateId` cursor is read by the embedded logic; the full Bootstrap
class lives outside the embedded sources. -/
structure Bootstrap where
  lastUpdateId : String
  deriving Repr, DecidableEq

/-- The client's websocket handle: its URL and whether it is connected. -/
structure WsState where
  url : String
  isConnected : Bool
  deriving Repr, DecidableEq

/-- The mutable client state of `ProtectApiClient` read and written by the
embedded methods: host and port, the held bootstrap, `_last_update` (monotonic
seconds), `_last_update_dt` (UTC milliseconds), `_last_ws_status`, and the
websocket handle. -/
structure ClientState where
  host : String
  port : Nat
  bootstrap : Option Bootstrap
  lastUpdate : Rat
  lastUpdateDt : Option Int
  lastWsStatus : Bool
  websocket : Option WsState
  deriving Repr, DecidableEq

/-- The `NEVER_RAN` sentinel from `api.py`. -/
def NEVER_RAN : Rat := -1000

/-- The `DEVICE_UPDATE_INTERVAL` constant: seconds before the bootstrap is
refreshed. -/
def DEVICE_UPDATE_INTERVAL : Rat := 900

/-- The `ws_path` constant of `BaseApiClient`. -/
def wsPath : String := "/proxy/protect/ws/updates"

/-- One hour in milliseconds (`timedelta(hours=1)` against JS timestamps). -/
def hourMs : Int := 3600000

/-- Embedding of `ProtectApiClient._get_last_update_id`: `None` when no bootstrap is held,
else the held bootstrap's cursor. -/
def getLastUpdateId (st : ClientState) : Option String :=
  match st.bootstrap with
  | none => none
  | some b => some b.lastUpdateId

/-- Embedding of `BaseApiClient.ws_url`: builds `wss://{host}`, appends `:{port}` when the
port differs from 443, appends `ws_path`, and appends the `lastUpdateId`
query exactly when a cursor is known. -/
def wsUrl (host : String) (port : Nat) (cursor : Option String) : String :=
  let url := "wss://" ++ host
  let url := if port ≠ 443 then url ++ ":" ++ toString port else url
  let url := url ++ wsPath
  match cursor with
  | none => url
  | some i => url ++ "?lastUpdateId=" ++ i

/-- Embedding of `BaseApiClient.async_connect_ws`: on `force` an existing websocket is torn
down; a missing websocket is created; the websocket URL is always refreshed
from `ws_url`; when not connected, `_last_ws_status` is cleared and a connect
attempt is made with timeouts and cancellations swallowed (`connectOutcome`
says whether the attempt ends connected). -/
def asyncConnectWs (st : ClientState) (force connectOutcome : Bool) :
    ClientState :=
  let st :=
    if force && st.websocket.isSome then { st with websocket := none } else st
  let ws : WsState :=
    match st.websocket with
    | some w => w
    | none => ⟨wsUrl st.host st.port (getLastUpdateId st), false⟩
  let ws := { ws with url := wsUrl st.host st.port (getLastUpdateId st) }
  if ws.isConnected then { st with websocket := some ws }
  else
    { st with
      websocket := some { ws with isConnected := connectOutcome }
      lastWsStatus := false }

/-- Embedding of `BaseApiClient.check_ws`: reports the websocket's connection state and
records it in `_last_ws_status` (`False`, state untouched, when no websocket
exists). -/
def checkWs (st : ClientState) : Bool × ClientState :=
  match st.websocket with
  | none => (false, st)
  | some w => (w.isConnected, { st with lastWsStatus := w.isConnected })

/-- The `for event in events: bootstrap.process_event(event)` loop of
`update`: applies events until the first failure, keeping the partially
updated bootstrap (the Python loop mutates in place). -/
def applyEvents (f : Bootstrap → String → Except String Bootstrap) :
    Bootstrap → List String → Bootstrap × Option String
  | b, [] => (b, none)
  | b, ev :: rest =>
    match f b ev with
    | .ok b2 => applyEvents f b2 rest
    | .error err => (b, some err)

/-- The outcome of one `ProtectApiClient.update` call: the final client state,
the exception it raised (if any), the value it returned, whether it performed
the full bootstrap fetch, and the `start` bound it passed to `get_events` when
it reached the polling path. -/
structure UpdateOutput where
  st : ClientState
  raised : Option String
  returned : Option Bootstrap
  didFetchBootstrap : Bool
  pollStart : Option Int
  deriving Repr, DecidableEq

/-- Embedding of `ProtectApiClient.update`.  External effects are inputs:
`fetch` is the outcome `get_bootstrap()` would produce, `connectOutcome`
whether the websocket connect attempt ends connected, `getEvents` the outcome
of `get_events(start, end)` for the bounds the code passes, and `applyEvent`
the outcome of `bootstrap.process_event` for one event.  A raise propagates
with the mutations performed so far kept, as in Python. -/
def update (st0 : ClientState) (force : Bool) (now : Rat) (nowDt : Int)
    (fetch : Except String Bootstrap) (connectOutcome : Bool)
    (getEvents : Int → Int → Except String (List String))
    (applyEvent : Bootstrap → String → Except String Bootstrap) :
    UpdateOutput :=
  let maxEventDt := nowDt - hourMs
  let st :=
    if force then
      { st0 with lastUpdate := NEVER_RAN, lastUpdateDt := some maxEventDt }
    else st0
  if st.bootstrap = none ∨ now - st.lastUpdate > DEVICE_UPDATE_INTERVAL then
    match fetch with
    | .error err => ⟨st, some err, none, true, none⟩
    | .ok b =>
      let st := { st with
        bootstrap := some b
        lastUpdate := now
        lastUpdateDt := some nowDt }
      let st := asyncConnectWs st force connectOutcome
      let st := (checkWs st).2
      ⟨st, none, none, true, none⟩
  else
    let st := asyncConnectWs st force connectOutcome
    let wsPair := checkWs st
    let st := wsPair.2
    if wsPair.1 then ⟨st, none, none, false, none⟩
    else
      let startDt := st.lastUpdateDt.getD maxEventDt
      match getEvents startDt nowDt with
      | .error err => ⟨st, some err, none, false, some startDt⟩
      | .ok evs =>
        match st.bootstrap with
        | none =>
          ⟨st, some "Client not initalized, run update first", none, false,
            some startDt⟩
        | some b =>
          let applied := applyEvents applyEvent b evs
          let st := { st with bootstrap := some applied.1 }
          match applied.2 with
          | some err => ⟨st, some err, none, false, some startDt⟩
          | none =>
            let st := { st with
              lastUpdate := now
              lastUpdateDt := some nowDt }
            ⟨st, none, st.bootstrap, false, some startDt⟩

/-- A client state whose previous full fetch happened one millisecond before
the `update` call of the C4 witness. -/
def stC4 : ClientState :=
  ⟨"nvr", 443, some ⟨"u"⟩, 10 - 1 / 1000, some 42, false, none⟩

/-- The client state of the C3 counterexample: bootstrap held, fetched
recently, last sync at time 5. -/
def stC3 : ClientState := ⟨"nvr", 443, some ⟨"cursor0"⟩, 100, some 5, false,
  none⟩

/-- The C3 counterexample run: no fresh bootstrap fetch, websocket down, and
the polling event fetch raises. -/
def runC3 : UpdateOutput :=
  update stC3 false 100 999 (.ok ⟨"cursor1"⟩) false
    (fun _ _ => .error "TransportError") (fun b _ => .ok b)

/-- The client state of the C3 witness: bootstrap held, fetched recently,
websocket absent. -/
def stC3ok : ClientState := ⟨"nvr", 443, some ⟨"u"⟩, 50, some 7, false, none⟩

/-- The trace of one `ProtectApiClient.emit_message` call: the argument of
each subscriber invocation in order, the outcome each subscriber produced, and
the exceptions that were caught and logged. -/
structure EmitTrace (α : Type) where
  calls : List α
  outcomes : List (Except String Unit)
  logged : List String

/-- Embedding of `ProtectApiClient.emit_message`: the `for sub in
self._ws_subscriptions` loop calls every subscriber with the message inside a
`try`/`except` that logs the exception and continues; the loop itself never
raises, so the function is total. -/
def emitMessage {α : Type} (subs : List (α → Except String Unit)) (msg : α) :
    EmitTrace α :=
  match subs with
  | [] => ⟨[], [], []⟩
  | f :: rest =>
    let r := f msg
    let t := emitMessage rest msg
    ⟨msg :: t.calls, r :: t.outcomes,
      (match r with
       | .ok _ => []
       | .error err => [err]) ++ t.logged⟩

/-- A serialized field value of the NVR device dict. -/
inductive Val where
  | str (s : String)
  | strList (l : List String)
  | msgList (l : List (String × String))
  deriving Repr, DecidableEq

/-- The slice of the NVR entity state touched by the doorbell operations: the
custom messages, two representative unrelated fields a websocket frame can
change, and the derived `all_messages` list. -/
structure NVRState where
  customMessages : List String
  defaultMessageText : String
  analyticsData : String
  allMessages : List (String × String)
  deriving Repr, DecidableEq

/-- A websocket frame's effect on the NVR entity: the fields it overwrites
when it is applied. -/
structure Frame where
  setCustomMessages : Option (List String)
  setDefaultMessageText : Option String
  setAnalyticsData : Option String
  deriving Repr, DecidableEq

/-- Applies a pending websocket frame to the NVR state. -/
def applyFrame (f : Frame) (st : NVRState) : NVRState :=
  { st with
    customMessages := f.setCustomMessages.getD st.customMessages
    defaultMessageText := f.setDefaultMessageText.getD st.defaultMessageText
    analyticsData := f.setAnalyticsData.getD st.analyticsData }

/-- Modelled from the spec: `dict_with_excludes`, the device's serialized
state read inside the lock scope as the diff baseline (it lives in
`data/base.py`, outside the embedded sources). -/
def dictWithExcludes (st : NVRState) : List (String × Val) :=
  [("doorbellSettings.customMessages", .strList st.customMessages),
   ("doorbellSettings.defaultMessageText", .str st.defaultMessageText),
   ("analyticsData", .str st.analyticsData),
   ("doorbellSettings.allMessages", .msgList st.allMessages)]

/-- Modelled from the spec: the diff-from-baseline `save_device` computes and
PATCHes — the keys whose serialized values differ between the baseline and the
current state (`save_device` lives in `data/base.py`, outside the embedded
sources). -/
def diffFields : List (String × Val) → List (String × Val) → List String
  | (k, v1) :: t1, (_, v2) :: t2 =>
    if v1 ≠ v2 then k :: diffFields t1 t2 else diffFields t1 t2
  | _, _ => []

/-- Embedding of `NVR.update_all_messages`: rebuilds `doorbell_settings.all_messages` from
the two built-in messages plus one `CUSTOM_MESSAGE` entry per custom
message. -/
def updateAllMessages (st : NVRState) : NVRState :=
  { st with
    allMessages :=
      [("LEAVE_PACKAGE_AT_DOOR", "LEAVE PACKAGE AT DOOR"),
        ("DO_NOT_DISTURB", "DO NOT DISTURB")]
      ++ st.customMessages.map fun m => ("CUSTOM_MESSAGE", m) }

/-- The errors a doorbell operation can raise: `BadRequest` from its own
validation, or Python's `ValueError` from `list.remove` on a missing
element. -/
inductive RunError where
  | badRequest (msg : String)
  | valueError
  deriving Repr, DecidableEq

/-- The observable outcome of one doorbell-message operation: the error it
raised (if any), the final NVR state, whether the per-device update lock was
taken, and the field-name diffs of the PATCH requests it sent. -/
structure DoorbellRun where
  error : Option RunError
  state : NVRState
  lockTaken : Bool
  requests : List (List String)
  deriving Repr, DecidableEq

/-- Whether a doorbell run ended in a `BadRequest`. -/
def isBadRequest : Option RunError → Bool
  | some (.badRequest _) => true
  | _ => false

/-- Embedding of `NVR.add_custom_doorbell_message`.  The cooperative model:
the pending websocket `frame` (if any change is queued) is applied at the
`asyncio.sleep(0)` yield taken right after the update lock is acquired;
`save_device` then reads the baseline, and after the PATCH
`update_all_messages` runs. -/
def addCustomDoorbellMessage (st : NVRState) (frame : Frame)
    (message : String) : DoorbellRun :=
  if 30 < message.length then
    ⟨some (.badRequest "Message length over 30 characters"), st, false, []⟩
  else if message ∈ st.customMessages then
    ⟨some (.badRequest "Custom doorbell message already exists"), st, false,
      []⟩
  else
    let st := applyFrame frame st
    let baseline := dictWithExcludes st
    let st := { st with customMessages := st.customMessages ++ [message] }
    let diff := diffFields baseline (dictWithExcludes st)
    let st := updateAllMessages st
    ⟨none, st, true, [diff]⟩

/-- Embedding of `NVR.remove_custom_doorbell_message`, with the same
cooperative model; `list.remove` on an element the frame already removed
raises `ValueError` after the baseline read, before any PATCH. -/
def removeCustomDoorbellMessage (st : NVRState) (frame : Frame)
    (message : String) : DoorbellRun :=
  if message ∈ st.customMessages then
    let st := applyFrame frame st
    if message ∈ st.customMessages then
      let baseline := dictWithExcludes st
      let st := { st with customMessages := st.customMessages.erase message }
      let diff := diffFields baseline (dictWithExcludes st)
      let st := updateAllMessages st
      ⟨none, st, true, [diff]⟩
    else
      ⟨some .valueError, st, true, []⟩
  else
    ⟨some (.badRequest "Custom doorbell message does not exists"), st, false,
      []⟩

/-- A concrete NVR state for the C9 witness. -/
def stD : NVRState := ⟨["hello"], "dflt", "an", []⟩

/-- An empty pending frame. -/
def frameD : Frame := ⟨none, none, none⟩

/-- A 31-character message. -/
def m31 : String := "0123456789012345678901234567890"

/-- A concrete NVR state for the C8 witness. -/
def stD2 : NVRState := ⟨["old"], "dflt", "an", []⟩

/-- A pending frame changing the default message text and the analytics
setting, but not the custom messages. -/
def frameD2 : Frame := ⟨none, some "newdflt", some "newan"⟩

lemma dropWhile_eq_drop {α : Type} (p : α → Bool) (l : List α) :
    l.dropWhile p = l.drop (l.takeWhile p).length := by
  induction l with
  | nil => simp
  | cons a t ih =>
    by_cases hp : p a <;>
      simp [List.dropWhile_cons, List.takeWhile_cons, hp, ih]

lemma length_takeWhile_le {α : Type} (p : α → Bool) (l : List α) :
    (l.takeWhile p).length ≤ l.length := by
  induction l with
  | nil => simp
  | cons a t ih =>
    by_cases hp : p a
    · simp only [List.takeWhile_cons, hp, if_true, List.length_cons]
      omega
    · simp [List.takeWhile_cons, hp]

lemma trimTrailing_eq_specTrim (s : Int) (l : List Event) :
    trimTrailing s l = specTrim s l := by
  have hk :
      (l.reverse.takeWhile fun ev => decide (ev.start < s)).length ≤
        l.length := by
    calc (l.reverse.takeWhile fun ev => decide (ev.start < s)).length
        ≤ l.reverse.length := length_takeWhile_le _ _
      _ = l.length := List.length_reverse l
  have hmain :
      specTrim s l =
        l.take (l.length -
          (l.reverse.takeWhile fun ev => decide (ev.start < s)).length) := by
    have hk2 :
        (l.reverse.takeWhile fun ev => decide (ev.start < s)).length =
          l.length - (l.length -
            (l.reverse.takeWhile fun ev => decide (ev.start < s)).length) := by
      omega
    rw [specTrim, dropWhile_eq_drop, hk2, ← List.reverse_take,
      List.reverse_reverse]
    congr 1
    omega
  rw [trimTrailing, hmain]
  by_cases h0 :
      (l.reverse.takeWhile fun ev => decide (ev.start < s)).length = 0
  · simp [h0, List.take_length]
  · simp [h0]

lemma specClip_eq_clipPage (e : Option Int) (p : List Event) :
    specClip e p = clipPage e p := rfl

lemma paginateLoop_succ (server : List Event) (s : Int) (e : Option Int)
    (f offset : Nat) (cs : Int) (acc : List Event) (rc pg : Nat) (lg : Bool)
    (wc : Nat) :
    paginateLoop server s e (f + 1) offset cs acc rc pg lg wc =
      if cs > s then
        if page server offset = [] then
          some ⟨acc, rc + 1, pg, wc, lg, cs, true⟩
        else
          paginateLoop server s e f (offset + 100)
            (match (acc ++ clipPage e (page server offset)).getLast? with
             | some ev => ev.start
             | none => cs)
            (acc ++ clipPage e (page server offset)) (rc + 1) (pg + 1)
            (lg || (!lg && decide (rc + 1 > 5)))
            (if !lg && decide (rc + 1 > 5) then wc + 1 else wc)
      else some ⟨acc, rc, pg, wc, lg, cs, false⟩ := rfl

lemma page_eq_empty_of_le (server : List Event) (offset : Nat)
    (h : server.length ≤ offset) : page server offset = [] := by
  simp [page, List.drop_eq_nil_of_le h]

lemma offset_lt_of_page_ne (server : List Event) (offset : Nat)
    (h : page server offset ≠ []) : offset < server.length := by
  by_contra hge
  push_neg at hge
  exact h (page_eq_empty_of_le server offset hge)

lemma paginateLoop_exit_le (server : List Event) (s : Int) (e : Option Int)
    (fuel offset : Nat) (cs : Int) (acc : List Event) (rc pg : Nat) (lg : Bool)
    (wc : Nat) (hcs : ¬ cs > s) (hf : 1 ≤ fuel) :
    paginateLoop server s e fuel offset cs acc rc pg lg wc =
      some ⟨acc, rc, pg, wc, lg, cs, false⟩ := by
  cases fuel with
  | zero => omega
  | succ f => rw [paginateLoop_succ, if_neg hcs]

lemma lastStartD_append (acc more : List Event) (cs : Int)
    (hcs : cs = lastStartD acc) :
    (match (acc ++ more).getLast? with
      | some ev => ev.start
      | none => cs) = lastStartD (acc ++ more) := by
  cases hL : (acc ++ more).getLast? with
  | some ev => simp [lastStartD, hL]
  | none =>
    have hnil : acc ++ more = [] := List.getLast?_eq_none_iff.mp hL
    rcases List.append_eq_nil.mp hnil with ⟨h1, h2⟩
    subst h1
    subst h2
    simp [lastStartD, hcs]

lemma paginateLoop_events (server : List Event) (s : Int) (e : Option Int)
    (hs : s < sysMaxsize) :
    ∀ fuel offset (acc : List Event) (rc pg : Nat) (lg : Bool) (wc : Nat),
      server.length + 100 ≤ 100 * fuel + offset → 1 ≤ fuel →
      s < lastStartD acc →
      (paginateLoop server s e fuel offset (lastStartD acc) acc rc pg lg
          wc).map PaginateResult.events
        = some (specAccum s e (server.drop offset) acc) := by
  intro fuel
  induction fuel with
  | zero =>
    intro offset acc rc pg lg wc hfuel hf hacc
    omega
  | succ f ih =>
    intro offset acc rc pg lg wc hfuel hf hacc
    rw [paginateLoop_succ, if_pos hacc]
    by_cases hp : page server offset = []
    · rw [if_pos hp, specAccum]
      have hp2 : (server.drop offset).take 100 = [] := hp
      rw [dif_pos hp2]
      rfl
    · rw [if_neg hp]
      have hofs : offset < server.length :=
        offset_lt_of_page_ne server offset hp
      have hf1 : 1 ≤ f := by omega
      have hfuel1 : server.length + 100 ≤ 100 * f + (offset + 100) := by
        omega
      have hcs' := lastStartD_append acc (clipPage e (page server offset))
        (lastStartD acc) rfl
      rw [hcs']
      have hp2 : ¬ (server.drop offset).take 100 = [] := hp
      have hpage : page server offset = (server.drop offset).take 100 := rfl
      have hdrop :
          (server.drop offset).drop 100 = server.drop (offset + 100) := by
        rw [List.drop_drop]
      cases hL : (acc ++ clipPage e (page server offset)).getLast? with
      | none =>
        have hnil : acc ++ clipPage e (page server offset) = [] :=
          List.getLast?_eq_none_iff.mp hL
        have hacc' :
            s < lastStartD (acc ++ clipPage e (page server offset)) := by
          rw [hnil]
          simpa [lastStartD] using hs
        rw [specAccum, dif_neg hp2]
        simp only [specClip_eq_clipPage, hdrop, ← hpage, hL]
        exact ih (offset + 100) _ (rc + 1) (pg + 1) _ _ hfuel1 hf1 hacc'
      | some ev =>
        have hlast :
            lastStartD (acc ++ clipPage e (page server offset)) = ev.start := by
          simp [lastStartD, hL]
        rw [specAccum, dif_neg hp2]
        simp only [specClip_eq_clipPage, hdrop, ← hpage, hL]
        by_cases hle : ev.start ≤ s
        · rw [if_pos hle,
            paginateLoop_exit_le server s e f (offset + 100) _ _ (rc + 1)
              (pg + 1) _ _ (by rw [hlast]; omega) hf1]
          rfl
        · rw [if_neg hle]
          exact ih (offset + 100) _ (rc + 1) (pg + 1) _ _ hfuel1 hf1
            (by rw [hlast]; omega)

lemma paginateLoop_isSome (server : List Event) (s : Int) (e : Option Int) :
    ∀ fuel offset (cs : Int) (acc : List Event) (rc pg : Nat) (lg : Bool)
      (wc : Nat),
      server.length + 100 ≤ 100 * fuel + offset → 1 ≤ fuel →
      (paginateLoop server s e fuel offset cs acc rc pg lg wc).isSome
        = true := by
  intro fuel
  induction fuel with
  | zero =>
    intro offset cs acc rc pg lg wc hfuel hf
    omega
  | succ f ih =>
    intro offset cs acc rc pg lg wc hfuel hf
    rw [paginateLoop_succ]
    by_cases hcs : cs > s
    · rw [if_pos hcs]
      by_cases hp : page server offset = []
      · rw [if_pos hp]
        rfl
      · rw [if_neg hp]
        have hofs := offset_lt_of_page_ne server offset hp
        exact ih (offset + 100) _ _ (rc + 1) (pg + 1) _ _ (by omega)
          (by omega)
    · rw [if_neg hcs]
      rfl

lemma paginateLoop_stable (server : List Event) (s : Int) (e : Option Int) :
    ∀ fuel fuel2 offset (cs : Int) (acc : List Event) (rc pg : Nat)
      (lg : Bool) (wc : Nat) (r : PaginateResult),
      paginateLoop server s e fuel offset cs acc rc pg lg wc = some r →
      fuel ≤ fuel2 →
      paginateLoop server s e fuel2 offset cs acc rc pg lg wc = some r := by
  intro fuel
  induction fuel with
  | zero =>
    intro fuel2 offset cs acc rc pg lg wc r hr hle
    simp [paginateLoop] at hr
  | succ f ih =>
    intro fuel2 offset cs acc rc pg lg wc r hr hle
    obtain ⟨f2, rfl⟩ : ∃ f2, fuel2 = f2 + 1 := ⟨fuel2 - 1, by omega⟩
    rw [paginateLoop_succ] at hr ⊢
    by_cases hcs : cs > s
    · rw [if_pos hcs] at hr ⊢
      by_cases hp : page server offset = []
      · rw [if_pos hp] at hr ⊢
        exact hr
      · rw [if_neg hp] at hr ⊢
        exact ih f2 (offset + 100) _ _ (rc + 1) (pg + 1) _ _ r hr (by omega)
    · rw [if_neg hcs] at hr ⊢
      exact hr

lemma paginateLoop_warn (server : List Event) (s : Int) (e : Option Int) :
    ∀ fuel offset (cs : Int) (acc : List Event) (pg : Nat)
      (r : PaginateResult),
      paginateLoop server s e fuel offset cs acc pg pg (decide (6 ≤ pg))
          (if 6 ≤ pg then 1 else 0) = some r →
      r.warnCount = if 6 ≤ r.pages then 1 else 0 := by
  intro fuel
  induction fuel with
  | zero =>
    intro offset cs acc pg r hr
    simp [paginateLoop] at hr
  | succ f ih =>
    intro offset cs acc pg r hr
    rw [paginateLoop_succ] at hr
    by_cases hcs : cs > s
    · rw [if_pos hcs] at hr
      by_cases hp : page server offset = []
      · rw [if_pos hp] at hr
        have := Option.some.inj hr
        subst this
        rfl
      · rw [if_neg hp] at hr
        have harg1 :
            (decide (6 ≤ pg) || (!(decide (6 ≤ pg)) && decide (pg + 1 > 5)))
              = decide (6 ≤ pg + 1) := by
          by_cases h6 : 6 ≤ pg
          · have h7 : 6 ≤ pg + 1 := by omega
            simp [h6, h7]
          · by_cases h5 : pg + 1 > 5
            · have h7 : 6 ≤ pg + 1 := by omega
              simp [h6, h5, h7]
            · have h7 : ¬ 6 ≤ pg + 1 := by omega
              simp [h6, h5, h7]
        have harg2 :
            (if (!(decide (6 ≤ pg)) && decide (pg + 1 > 5)) = true then
                (if 6 ≤ pg then 1 else 0) + 1
              else (if 6 ≤ pg then 1 else 0))
              = if 6 ≤ pg + 1 then 1 else 0 := by
          by_cases h6 : 6 ≤ pg
          · have h7 : 6 ≤ pg + 1 := by omega
            simp [h6, h7]
          · by_cases h5 : pg + 1 > 5
            · have h7 : 6 ≤ pg + 1 := by omega
              simp [h6, h5, h7]
            · have h7 : ¬ 6 ≤ pg + 1 := by omega
              simp [h6, h5, h7]
        rw [harg1, harg2] at hr
        exact ih (offset + 100) _ _ (pg + 1) r hr
    · rw [if_neg hcs] at hr
      have := Option.some.inj hr
      subst this
      rfl

lemma paginateLoop_exit (server : List Event) (s : Int) (e : Option Int) :
    ∀ fuel offset (cs : Int) (acc : List Event) (rc pg : Nat) (lg : Bool)
      (wc : Nat) (r : PaginateResult),
      paginateLoop server s e fuel offset cs acc rc pg lg wc = some r →
      r.exitEmptyPage = true ∨ r.currentStart ≤ s := by
  intro fuel
  induction fuel with
  | zero =>
    intro offset cs acc rc pg lg wc r hr
    simp [paginateLoop] at hr
  | succ f ih =>
    intro offset cs acc rc pg lg wc r hr
    rw [paginateLoop_succ] at hr
    by_cases hcs : cs > s
    · rw [if_pos hcs] at hr
      by_cases hp : page server offset = []
      · rw [if_pos hp] at hr
        have := Option.some.inj hr
        subst this
        left
        rfl
      · rw [if_neg hp] at hr
        exact ih (offset + 100) _ _ (rc + 1) (pg + 1) _ _ r hr
    · rw [if_neg hcs] at hr
      have := Option.some.inj hr
      subst this
      right
      exact not_lt.mp hcs

lemma paginateLoop_allclip (server : List Event) (s eInt : Int)
    (hs : s < sysMaxsize) (hall : ∀ ev ∈ server, eInt < ev.start) :
    ∀ fuel offset (rc pg : Nat) (lg : Bool) (wc : Nat),
      server.length + 100 ≤ 100 * fuel + offset → 1 ≤ fuel →
      (paginateLoop server s (some eInt) fuel offset sysMaxsize [] rc pg lg
          wc).map (fun r => (r.events, r.currentStart, r.exitEmptyPage))
        = some ([], sysMaxsize, true) := by
  intro fuel
  induction fuel with
  | zero =>
    intro offset rc pg lg wc hfuel hf
    omega
  | succ f ih =>
    intro offset rc pg lg wc hfuel hf
    have hcs : sysMaxsize > s := hs
    rw [paginateLoop_succ, if_pos hcs]
    by_cases hp : page server offset = []
    · rw [if_pos hp]
      rfl
    · rw [if_neg hp]
      have hofs := offset_lt_of_page_ne server offset hp
      have hclip : clipPage (some eInt) (page server offset) = [] := by
        cases hpg : page server offset with
        | nil => rfl
        | cons a t =>
          have ham : a ∈ page server offset := by
            rw [hpg]
            exact List.mem_cons_self a t
          have ha : a ∈ server :=
            List.drop_subset offset server (List.take_subset 100 _ ham)
          have hfa : eInt < a.start := hall a ha
          simp [clipPage, hpg, List.takeWhile_cons,
            decide_eq_false (not_le.mpr hfa)]
      simp only [hclip, List.append_nil, List.getLast?_nil]
      exact ih (offset + 100) (rc + 1) (pg + 1) _ _ (by omega) (by omega)

lemma getEventPaginate_eq (server : List Event) (s : Int) (e : Option Int) :
    ∃ r, paginateLoop server s e (enoughFuel server) 0 sysMaxsize [] 0 0
        false 0 = some r ∧
      getEventPaginate server s e =
        { r with events := trimTrailing s r.events } := by
  have h := paginateLoop_isSome server s e (enoughFuel server) 0 sysMaxsize
    [] 0 0 false 0 (by unfold enoughFuel; omega) (by unfold enoughFuel; omega)
  obtain ⟨r, hr⟩ := Option.isSome_iff_exists.mp h
  refine ⟨r, hr, ?_⟩
  simp only [getEventPaginate, hr]

/-- C1 (counterexample): for the server holding exactly the three events
`[{start:100,end:150},{start:200,end:250},{start:300,end:null}]`, served
newest-first in descending pages, the catch-up fetch with start 120 and end
260 does not return the two events with start 100 and 200; it returns the
empty list. -/
theorem claim_C1_counterexample :
    getEventsRaw serverC1 120 (some 260) none none Sorting.asc ≠ [ev100, ev200]
    ∧ getEventsRaw serverC1 120 (some 260) none none Sorting.asc = [] := by
  decide

/-- C1 (amended): for the server holding exactly the three events, served
newest-first in descending pages, a catch-up fetch requested with start 120
and end 260 returns no events at all: the end clipping cuts the first
descending page at its very first item (start 300 > 260), discarding the items
with start 200 and 100 behind it, and the following page comes back empty. -/
theorem claim_C1 :
    getEventsRaw serverC1 120 (some 260) none none Sorting.asc = []
    ∧ getEventsRaw serverC1 120 (some 260) none none Sorting.desc = [] := by
  decide

/-- C2: for every requested window (start required, end optional) the catch-up
pagination fetches descending pages of size 100 and accumulates them until the
oldest accumulated item's start is at most the requested start or a page comes
back empty, cutting each page at the first item whose start exceeds the
requested end, then removing trailing items whose start is below the requested
start, and returning the accumulated sequence reversed exactly when ascending
order was requested — the code agrees with the specification's wording of the
algorithm. -/
theorem claim_C2 (server : List Event) (s : Int) (e : Option Int)
    (hs : s < sysMaxsize) :
    (getEventPaginate server s e).events = specCatchUp server s e
    ∧ getEventsRaw server s e none none Sorting.desc = specCatchUp server s e
    ∧ getEventsRaw server s e none none Sorting.asc
        = (specCatchUp server s e).reverse := by
  obtain ⟨r, hr, hg⟩ := getEventPaginate_eq server s e
  have hev := paginateLoop_events server s e hs (enoughFuel server) 0 [] 0 0
    false 0 (by unfold enoughFuel; omega) (by unfold enoughFuel; omega) hs
  rw [show lastStartD [] = sysMaxsize from rfl] at hev
  rw [hr] at hev
  have hev2 : r.events = specAccum s e server [] := by
    simpa [List.drop_zero] using hev
  have hmain :
      (getEventPaginate server s e).events = specCatchUp server s e := by
    rw [hg]
    show trimTrailing s r.events = specCatchUp server s e
    rw [trimTrailing_eq_specTrim, hev2, specCatchUp]
  refine ⟨hmain, ?_, ?_⟩
  · simp [getEventsRaw, sliceEvents, truthy, hmain]
  · simp [getEventsRaw, sliceEvents, truthy, hmain]

/-- Witness for C2 at a concrete one-event server and window. -/
theorem claim_C2_witness :
    (getEventPaginate [Event.mk 300 none] 120 none).events
        = specCatchUp [Event.mk 300 none] 120 none
    ∧ getEventsRaw [Event.mk 300 none] 120 none none none Sorting.desc
        = specCatchUp [Event.mk 300 none] 120 none
    ∧ getEventsRaw [Event.mk 300 none] 120 none none none Sorting.asc
        = (specCatchUp [Event.mk 300 none] 120 none).reverse :=
  claim_C2 [Event.mk 300 none] 120 none (by decide)

set_option maxRecDepth 40000 in
/-- C7 (counterexample): with a 500-event server the run issues 6 page
requests — so it had issued 5 page requests (500 events) without completing —
yet no diagnostic warning is ever emitted, because the sixth page comes back
empty and the loop breaks before the `request_count > 5` check. -/
theorem claim_C7_counterexample :
    (getEventPaginate server500 0 none).requestCount = 6
    ∧ (getEventPaginate server500 0 none).warnCount = 0 := by
  decide

/-- C7 (amended): during a single catch-up pagination run the one-time
diagnostic warning is emitted exactly when the run processes at least 6
non-empty pages (the `request_count > 5` check after a non-empty page); it is
emitted at most once per run; and the run never aborts on account of page
count — it only ever ends through the empty-page break or through the
accumulated-oldest-start bound reaching the requested start. -/
theorem claim_C7 (server : List Event) (s : Int) (e : Option Int) :
    (getEventPaginate server s e).warnCount ≤ 1
    ∧ ((getEventPaginate server s e).warnCount = 1
        ↔ 6 ≤ (getEventPaginate server s e).pages)
    ∧ ((getEventPaginate server s e).exitEmptyPage = true
        ∨ (getEventPaginate server s e).currentStart ≤ s) := by
  obtain ⟨r, hr, hg⟩ := getEventPaginate_eq server s e
  have hw := paginateLoop_warn server s e (enoughFuel server) 0 sysMaxsize []
    0 r hr
  have he := paginateLoop_exit server s e (enoughFuel server) 0 sysMaxsize []
    0 0 false 0 r hr
  rw [hg]
  refine ⟨?_, ?_, ?_⟩
  · show r.warnCount ≤ 1
    rw [hw]
    by_cases h6 : 6 ≤ r.pages <;> simp [h6]
  · show r.warnCount = 1 ↔ 6 ≤ r.pages
    rw [hw]
    by_cases h6 : 6 ≤ r.pages <;> simp [h6]
  · show r.exitEmptyPage = true ∨ r.currentStart ≤ s
    exact he

/-- C10: for every finite event store the pagination loop terminates — fuel
`server.length + 1` always yields a result, and the result is stable under any
larger fuel — and when the end clipping discards every fetched item the run
still exits through the empty-page branch with no events, the `current_start`
loop bound never having advanced below its initial `sys.maxsize`. -/
theorem claim_C10 :
    (∀ (server : List Event) (s : Int) (e : Option Int),
      ∃ r, paginateLoop server s e (enoughFuel server) 0 sysMaxsize [] 0 0
          false 0 = some r
        ∧ ∀ fuel, enoughFuel server ≤ fuel →
            paginateLoop server s e fuel 0 sysMaxsize [] 0 0 false 0 = some r)
    ∧ (∀ (server : List Event) (s eInt : Int), s < sysMaxsize →
        (∀ ev ∈ server, eInt < ev.start) →
        (getEventPaginate server s (some eInt)).exitEmptyPage = true
        ∧ (getEventPaginate server s (some eInt)).events = []
        ∧ (getEventPaginate server s (some eInt)).currentStart
            = sysMaxsize) := by
  constructor
  · intro server s e
    obtain ⟨r, hr, _⟩ := getEventPaginate_eq server s e
    exact ⟨r, hr, fun fuel hle => paginateLoop_stable server s e
      (enoughFuel server) fuel 0 sysMaxsize [] 0 0 false 0 r hr hle⟩
  · intro server s eInt hs hall
    obtain ⟨r, hr, hg⟩ := getEventPaginate_eq server s (some eInt)
    have h := paginateLoop_allclip server s eInt hs hall (enoughFuel server)
      0 0 0 false 0 (by unfold enoughFuel; omega) (by unfold enoughFuel; omega)
    rw [hr] at h
    simp only [Option.map_some', Option.some.injEq, Prod.mk.injEq] at h
    obtain ⟨h1, h2, h3⟩ := h
    rw [hg]
    refine ⟨h3, ?_, h2⟩
    show trimTrailing s r.events = []
    rw [h1]
    rfl

/-- Witness for C10 at a concrete one-event server whose single event is
clipped away entirely. -/
theorem claim_C10_witness :
    (getEventPaginate [Event.mk 300 none] 0 (some 100)).exitEmptyPage = true
    ∧ (getEventPaginate [Event.mk 300 none] 0 (some 100)).events = []
    ∧ (getEventPaginate [Event.mk 300 none] 0 (some 100)).currentStart
        = sysMaxsize :=
  claim_C10.2 [Event.mk 300 none] 0 100 (by decide) (by decide)

/-- C5: the push-channel URL has the form
`wss://{host}[:{port}]{ws_path}[?lastUpdateId={cursor}]`: the port component
is present exactly when the configured port differs from 443 and the query
suffix exactly when a bootstrap with a known `last_update_id` is held; and
every (re)connect attempt regenerates the websocket's URL from the current
state, so the embedded cursor is current. -/
theorem claim_C5 (st : ClientState) (force c : Bool) (h : String) (p : Nat)
    (cur : String) :
    ((asyncConnectWs st force c).websocket).map WsState.url
        = some (wsUrl st.host st.port (getLastUpdateId st))
    ∧ wsUrl h p none
        = "wss://" ++ h ++ (if p = 443 then "" else ":" ++ toString p)
            ++ wsPath
    ∧ wsUrl h p (some cur)
        = "wss://" ++ h ++ (if p = 443 then "" else ":" ++ toString p)
            ++ wsPath ++ "?lastUpdateId=" ++ cur
    ∧ getLastUpdateId st = Option.map Bootstrap.lastUpdateId st.bootstrap := by
  obtain ⟨h0, p0, bs, lu, lud, lws, ws⟩ := st
  refine ⟨?_, ?_, ?_, ?_⟩
  · cases ws with
    | none => cases force <;> simp [asyncConnectWs, getLastUpdateId]
    | some w =>
      obtain ⟨u, conn⟩ := w
      cases force <;> cases conn <;> simp [asyncConnectWs, getLastUpdateId]
  · by_cases hp : p = 443 <;> simp [wsUrl, hp, String.append_assoc]
  · by_cases hp : p = 443 <;> simp [wsUrl, hp, String.append_assoc]
  · cases bs <;> simp [getLastUpdateId]

/-- C4: calling `update` with `force=True` resets the refresh timer to
`NEVER_RAN` and rewinds the polling lower bound to one hour before now, so the
call performs the full bootstrap fetch no matter how recently the previous
full fetch happened; when the fetch itself raises, the reset values are what
remains in the state. -/
theorem claim_C4 (st : ClientState) (now : Rat) (nowDt : Int)
    (fetch : Except String Bootstrap) (c : Bool)
    (ge : Int → Int → Except String (List String))
    (ap : Bootstrap → String → Except String Bootstrap) (hnow : 0 ≤ now) :
    (update st true now nowDt fetch c ge ap).didFetchBootstrap = true
    ∧ (∀ err, fetch = .error err →
        (update st true now nowDt fetch c ge ap).st.lastUpdate = NEVER_RAN
        ∧ (update st true now nowDt fetch c ge ap).st.lastUpdateDt
            = some (nowDt - hourMs)) := by
  have hgt : now - NEVER_RAN > DEVICE_UPDATE_INTERVAL := by
    unfold NEVER_RAN DEVICE_UPDATE_INTERVAL
    have hsum : now - (-1000 : Rat) = now + 1000 := by ring
    rw [hsum]
    linarith
  cases fetch with
  | error err =>
    refine ⟨?_, ?_⟩
    · simp [update, hgt]
    · intro e _
      constructor <;> simp [update, hgt]
  | ok b =>
    refine ⟨?_, ?_⟩
    · simp [update, hgt]
    · intro e he
      exact absurd he (by simp)

/-- Witness for C4: `force=True` one millisecond after a full fetch still
performs the bootstrap fetch, and a failing fetch leaves the reset values. -/
theorem claim_C4_witness :
    (update stC4 true 10 77 (.error "down") false (fun _ _ => .ok [])
        (fun b _ => .ok b)).didFetchBootstrap = true
    ∧ (update stC4 true 10 77 (.error "down") false (fun _ _ => .ok [])
        (fun b _ => .ok b)).st.lastUpdate = NEVER_RAN
    ∧ (update stC4 true 10 77 (.error "down") false (fun _ _ => .ok [])
        (fun b _ => .ok b)).st.lastUpdateDt = some (77 - hourMs) := by
  have h := claim_C4 stC4 10 77 (.error "down") false (fun _ _ => .ok [])
    (fun b _ => .ok b) (by norm_num)
  exact ⟨h.1, (h.2 "down" rfl).1, (h.2 "down" rfl).2⟩

/-- C3 (counterexample): an `update` call that reaches the polling fallback
path and whose event fetch raises leaves the last-sync timestamp at its old
value 5 instead of setting it to the call's start time 999 — the timestamp is
not updated regardless of outcome. -/
theorem claim_C3_counterexample :
    runC3.didFetchBootstrap = false
    ∧ runC3.pollStart = some 5
    ∧ runC3.raised = some "TransportError"
    ∧ runC3.st.lastUpdateDt = some 5
    ∧ runC3.st.lastUpdateDt ≠ some 999 := by
  have hne : ¬ ((0 : Rat) > DEVICE_UPDATE_INTERVAL) := by
    norm_num [DEVICE_UPDATE_INTERVAL]
  refine ⟨?_, ?_, ?_, ?_, ?_⟩ <;>
    simp [runC3, stC3, update, asyncConnectWs, checkWs, getLastUpdateId, hne]

/-- C3 (amended): every `update` call that reaches the polling fallback path
sets the last-sync timestamp (and `_last_update`) to the time the call began
when the poll completes without raising — even when it returns no events; but
when the event fetch or the event application raises, both are left unchanged,
so the polling lower bound does not advance on such failures. -/
theorem claim_C3 (st : ClientState) (now : Rat) (nowDt : Int)
    (fetch : Except String Bootstrap) (c : Bool)
    (ge : Int → Int → Except String (List String))
    (ap : Bootstrap → String → Except String Bootstrap)
    (hb : st.bootstrap.isSome = true)
    (ht : ¬ now - st.lastUpdate > DEVICE_UPDATE_INTERVAL)
    (hw : (checkWs (asyncConnectWs st false c)).1 = false) :
    ((update st false now nowDt fetch c ge ap).raised = none →
      (update st false now nowDt fetch c ge ap).st.lastUpdateDt = some nowDt
      ∧ (update st false now nowDt fetch c ge ap).st.lastUpdate = now)
    ∧ ((update st false now nowDt fetch c ge ap).raised ≠ none →
      (update st false now nowDt fetch c ge ap).st.lastUpdateDt
          = st.lastUpdateDt
      ∧ (update st false now nowDt fetch c ge ap).st.lastUpdate
          = st.lastUpdate) := by
  obtain ⟨h0, p0, bs, lu, lud, lws, ws⟩ := st
  obtain ⟨b, rfl⟩ : ∃ b, bs = some b := Option.isSome_iff_exists.mp hb
  cases ws with
  | some w =>
    obtain ⟨u, conn⟩ := w
    cases conn with
    | true =>
      exfalso
      simp [asyncConnectWs, checkWs] at hw
    | false =>
      have hc : c = false := by simpa [asyncConnectWs, checkWs] using hw
      subst hc
      cases hge : ge (lud.getD (nowDt - hourMs)) nowDt with
      | error err =>
        constructor
        · intro hnone
          exfalso
          simp [update, ht, hge, asyncConnectWs, checkWs] at hnone
        · intro _
          constructor <;>
            simp [update, ht, hge, asyncConnectWs, checkWs]
      | ok evs =>
        cases happ : (applyEvents ap b evs).2 with
        | some err =>
          constructor
          · intro hnone
            exfalso
            simp [update, ht, hge, happ, asyncConnectWs, checkWs] at hnone
          · intro _
            constructor <;>
              simp [update, ht, hge, happ, asyncConnectWs, checkWs]
        | none =>
          constructor
          · intro _
            constructor <;>
              simp [update, ht, hge, happ, asyncConnectWs, checkWs]
          · intro hne
            exfalso
            apply hne
            simp [update, ht, hge, happ, asyncConnectWs, checkWs]
  | none =>
    have hc : c = false := by simpa [asyncConnectWs, checkWs] using hw
    subst hc
    cases hge : ge (lud.getD (nowDt - hourMs)) nowDt with
    | error err =>
      constructor
      · intro hnone
        exfalso
        simp [update, ht, hge, asyncConnectWs, checkWs] at hnone
      · intro _
        constructor <;>
          simp [update, ht, hge, asyncConnectWs, checkWs]
    | ok evs =>
      cases happ : (applyEvents ap b evs).2 with
      | some err =>
        constructor
        · intro hnone
          exfalso
          simp [update, ht, hge, happ, asyncConnectWs, checkWs] at hnone
        · intro _
          constructor <;>
            simp [update, ht, hge, happ, asyncConnectWs, checkWs]
      | none =>
        constructor
        · intro _
          constructor <;>
            simp [update, ht, hge, happ, asyncConnectWs, checkWs]
        · intro hne
          exfalso
          apply hne
          simp [update, ht, hge, happ, asyncConnectWs, checkWs]

/-- Witness for C3 at a concrete successful polling run. -/
theorem claim_C3_witness :
    (update stC3ok false 50 888 (.ok ⟨"v"⟩) false (fun _ _ => .ok ["ev"])
        (fun b _ => .ok b)).st.lastUpdateDt = some 888
    ∧ (update stC3ok false 50 888 (.ok ⟨"v"⟩) false (fun _ _ => .ok ["ev"])
        (fun b _ => .ok b)).st.lastUpdate = 50 := by
  have h := claim_C3 stC3ok 50 888 (.ok ⟨"v"⟩) false (fun _ _ => .ok ["ev"])
    (fun b _ => .ok b) (by decide)
    (by norm_num [stC3ok, DEVICE_UPDATE_INTERVAL]) (by decide)
  have hne : ¬ ((0 : Rat) > DEVICE_UPDATE_INTERVAL) := by
    norm_num [DEVICE_UPDATE_INTERVAL]
  exact h.1 (by simp [update, stC3ok, asyncConnectWs, checkWs, applyEvents,
    getLastUpdateId, hne])

/-- C6: for every list of registered subscribers and every message,
`emit_message` invokes every subscriber exactly once with that message and in
registration order, even when some subscribers raise: each raised exception is
caught and logged, and neither prevents the remaining deliveries nor
propagates out (the outcome list always covers every subscriber). -/
theorem claim_C6 {α : Type} (subs : List (α → Except String Unit)) (msg : α) :
    (emitMessage subs msg).calls = (subs.map fun _ => msg)
    ∧ (emitMessage subs msg).outcomes = (subs.map fun f => f msg)
    ∧ (emitMessage subs msg).logged
        = ((subs.map fun f => f msg).filterMap fun r =>
            match r with
            | .error err => some err
            | .ok _ => none) := by
  induction subs with
  | nil => exact ⟨rfl, rfl, rfl⟩
  | cons f rest ih =>
    refine ⟨?_, ?_, ?_⟩
    · simp [emitMessage, ih.1]
    · simp [emitMessage, ih.2.1]
    · cases hr : f msg with
      | ok u => simp [emitMessage, hr, ih.2.2]
      | error err => simp [emitMessage, hr, ih.2.2]

lemma mem_diffFields_custom (st1 st2 : NVRState)
    (hd : st1.defaultMessageText = st2.defaultMessageText)
    (ha : st1.analyticsData = st2.analyticsData)
    (hm : st1.allMessages = st2.allMessages) :
    ∀ k ∈ diffFields (dictWithExcludes st1) (dictWithExcludes st2),
      k = "doorbellSettings.customMessages" := by
  intro k hk
  simp only [dictWithExcludes, diffFields, hd, ha, hm] at hk
  simp at hk
  exact hk.2

/-- C9: `add_custom_doorbell_message` raises `BadRequest` exactly when the
message is longer than 30 characters or already present, and
`remove_custom_doorbell_message` raises `BadRequest` exactly when the message
is not present; in every such error case the check happens before the update
lock is taken, the local state is left unchanged, and no remote request is
issued. -/
theorem claim_C9 (st : NVRState) (frame : Frame) (m : String) :
    (isBadRequest (addCustomDoorbellMessage st frame m).error = true
      ↔ (30 < m.length ∨ m ∈ st.customMessages))
    ∧ ((30 < m.length ∨ m ∈ st.customMessages) →
        (addCustomDoorbellMessage st frame m).state = st
        ∧ (addCustomDoorbellMessage st frame m).lockTaken = false
        ∧ (addCustomDoorbellMessage st frame m).requests = [])
    ∧ (isBadRequest (removeCustomDoorbellMessage st frame m).error = true
      ↔ m ∉ st.customMessages)
    ∧ (m ∉ st.customMessages →
        (removeCustomDoorbellMessage st frame m).state = st
        ∧ (removeCustomDoorbellMessage st frame m).lockTaken = false
        ∧ (removeCustomDoorbellMessage st frame m).requests = []) := by
  by_cases h2 : m ∈ st.customMessages
  · by_cases h3 : m ∈ (applyFrame frame st).customMessages <;>
      by_cases h1 : 30 < m.length <;>
      simp [addCustomDoorbellMessage, removeCustomDoorbellMessage,
        isBadRequest, h1, h2, h3]
  · by_cases h1 : 30 < m.length <;>
      simp [addCustomDoorbellMessage, removeCustomDoorbellMessage,
        isBadRequest, h1, h2]

/-- Witness for C9: an over-long add and a remove of an absent message both
leave the state untouched, take no lock, and send no request. -/
theorem claim_C9_witness :
    (addCustomDoorbellMessage stD frameD m31).state = stD
    ∧ (addCustomDoorbellMessage stD frameD m31).lockTaken = false
    ∧ (addCustomDoorbellMessage stD frameD m31).requests = []
    ∧ (removeCustomDoorbellMessage stD frameD "absent").state = stD
    ∧ (removeCustomDoorbellMessage stD frameD "absent").lockTaken = false
    ∧ (removeCustomDoorbellMessage stD frameD "absent").requests = [] := by
  have h1 := (claim_C9 stD frameD m31).2.1 (Or.inl (by decide))
  have h2 := (claim_C9 stD frameD "absent").2.2.2 (by decide)
  exact ⟨h1.1, h1.2.1, h1.2.2, h2.1, h2.2.1, h2.2.2⟩

/-- C8: when a save operation (adding or removing a custom doorbell message)
runs with a pending websocket frame for the same entity — applied at the
cooperative yield taken after the lock is acquired and before the diff
baseline is read — the computed diff never contains a field changed only by
the frame (it is confined to the custom-messages field), and the frame's
changes survive in the final state instead of being clobbered. -/
theorem claim_C8 (st : NVRState) (frame : Frame) (m : String) :
    (¬ 30 < m.length → m ∉ st.customMessages →
      (addCustomDoorbellMessage st frame m).error = none
      ∧ (∀ d ∈ (addCustomDoorbellMessage st frame m).requests,
          ∀ k ∈ d, k = "doorbellSettings.customMessages")
      ∧ (addCustomDoorbellMessage st frame m).state.defaultMessageText
          = (applyFrame frame st).defaultMessageText
      ∧ (addCustomDoorbellMessage st frame m).state.analyticsData
          = (applyFrame frame st).analyticsData)
    ∧ (m ∈ st.customMessages → m ∈ (applyFrame frame st).customMessages →
      (removeCustomDoorbellMessage st frame m).error = none
      ∧ (∀ d ∈ (removeCustomDoorbellMessage st frame m).requests,
          ∀ k ∈ d, k = "doorbellSettings.customMessages")
      ∧ (removeCustomDoorbellMessage st frame m).state.defaultMessageText
          = (applyFrame frame st).defaultMessageText
      ∧ (removeCustomDoorbellMessage st frame m).state.analyticsData
          = (applyFrame frame st).analyticsData) := by
  constructor
  · intro h1 h2
    simp only [addCustomDoorbellMessage, if_neg h1, if_neg h2]
    refine ⟨trivial, ?_, by simp [updateAllMessages],
      by simp [updateAllMessages]⟩
    intro d hd k hk
    simp only [List.mem_singleton] at hd
    subst hd
    exact mem_diffFields_custom (applyFrame frame st)
      { applyFrame frame st with
        customMessages := (applyFrame frame st).customMessages ++ [m] }
      rfl rfl rfl k hk
  · intro h1 h2
    simp only [removeCustomDoorbellMessage, if_pos h1, if_pos h2]
    refine ⟨trivial, ?_, by simp [updateAllMessages],
      by simp [updateAllMessages]⟩
    intro d hd k hk
    simp only [List.mem_singleton] at hd
    subst hd
    exact mem_diffFields_custom (applyFrame frame st)
      { applyFrame frame st with
        customMessages := (applyFrame frame st).customMessages.erase m }
      rfl rfl rfl k hk

/-- Witness for C8: a concrete add and remove with a pending frame for the
same entity, whose changes survive the save. -/
theorem claim_C8_witness :
    (addCustomDoorbellMessage stD2 frameD2 "hey").error = none
    ∧ (addCustomDoorbellMessage stD2 frameD2 "hey").state.defaultMessageText
        = (applyFrame frameD2 stD2).defaultMessageText
    ∧ (removeCustomDoorbellMessage stD2 frameD2 "old").error = none := by
  have h1 := (claim_C8 stD2 frameD2 "hey").1 (by decide) (by decide)
  have h2 := (claim_C8 stD2 frameD2 "old").2 (by decide) (by decide)
  exact ⟨h1.1, h1.2.2.1, h2.1⟩

end UFP
